import Mathlib

/-! httptool: middleware chaining and the recovery boundary

A shallow embedding of `httptool.go` (package `httptool`) and of the few
`net/http` and `fmt` primitives it calls.

How Go is rendered here:

* A handler invocation is a function from the state of the exchange before
  the call to an `Outcome`: either a normal return (with the returned value)
  or a panic in flight (with the panic value), each with the state reached.
* `http.ResponseWriter` and `Logger` are interfaces implemented outside the
  package.  The state records, in program order, the calls they received;
  the collaborators themselves are sinks that return normally (spec §6).
* Interface values and function values may be nil.  Calling a method on a nil
  interface, or calling a nil function, panics with the runtime error.
* Panic values are non-nil: `panic(nil)` raises a `*runtime.PanicNilError`.
-/

namespace Httptool

/-! ## Values, requests and the state of one exchange -/

/-- Go values that reach `panic` and `Printf`: strings, integers, and values
implementing `error` (shown through their `Error()` text). -/
inductive Value where
  | str (s : String)
  | int (n : Int)
  | err (msg : String)
  deriving DecidableEq, Repr

/-- Go's `error` interface as a return value: `none` is `nil`. -/
abbrev GoError := Option String

/-- The `*http.Request` handed to a handler; read-only for this package. -/
structure Request where
  method : String
  path : String
  deriving DecidableEq, Repr

/-- One call received by the `http.ResponseWriter` of the exchange. -/
inductive WriterCall where
  | headerSet (key value : String)
  | headerAdd (key value : String)
  | headerDel (key : String)
  | writeHeader (code : Nat)
  | write (data : String)
  deriving DecidableEq, Repr

/-- One call `Printf(format, v...)` received by a `Logger`. -/
structure LogCall where
  format : String
  args : List Value
  deriving DecidableEq, Repr

/-- One call received by a collaborator of the exchange: the response writer
or the logger. -/
inductive Event where
  | writer (c : WriterCall)
  | logger (c : LogCall)
  deriving DecidableEq, Repr

/-- The writer call of an event, if it is one. -/
def Event.writerCall : Event → Option WriterCall
  | .writer c => some c
  | .logger _ => none

/-- The logger call of an event, if it is one. -/
def Event.logCall : Event → Option LogCall
  | .writer _ => none
  | .logger c => some c

/-- State of one exchange: the calls received so far by the response writer
and by the logger, in program order (oldest first), and the state `app`
shared by the application's handlers. -/
structure World (σ : Type) where
  events : List Event
  app : σ

/-- Calls received so far by the response writer, oldest first. -/
def World.w {σ : Type} (s : World σ) : List WriterCall :=
  s.events.filterMap Event.writerCall

/-- Calls received so far by the logger, oldest first. -/
def World.logged {σ : Type} (s : World σ) : List LogCall :=
  s.events.filterMap Event.logCall

/-- The state after the response writer received `calls`, in this order. -/
def World.write {σ : Type} (s : World σ) (calls : List WriterCall) : World σ :=
  { s with events := s.events ++ calls.map Event.writer }

/-- Result of running Go code from some state: a normal return of `val`, or a
panic with value `v` in flight; `s` is the state reached. -/
inductive Outcome (σ α : Type) where
  | ret (val : α) (s : World σ)
  | panic (v : Value) (s : World σ)

/-- State reached by an outcome. -/
def Outcome.world {σ α : Type} : Outcome σ α → World σ
  | .ret _ s => s
  | .panic _ s => s

/-- The outcome is a normal return. -/
def Outcome.returns {σ α : Type} : Outcome σ α → Bool
  | .ret _ _ => true
  | .panic _ _ => false

/-- Panic value of the run-time error raised by a nil dereference or a call of
a nil function. -/
def nilDereference : Value :=
  .err "runtime error: invalid memory address or nil pointer dereference"

/-! ## `fmt` -/

namespace fmt

/-- Text of a value under the verb `%v`. -/
def formatValue : Value → String
  | .str s => s
  | .int n => toString n
  | .err msg => msg

/-- Expansion of a format: `%v` takes the next operand, `%%` is a percent
sign, any other character is copied. -/
def expand : List Char → List Value → List Char
  | '%' :: 'v' :: rest, v :: vs => (formatValue v).toList ++ expand rest vs
  | '%' :: 'v' :: rest, [] => "%!v(MISSING)".toList ++ expand rest []
  | '%' :: '%' :: rest, vs => '%' :: expand rest vs
  | c :: rest, vs => c :: expand rest vs
  | [], _ => []

/-- Message of `fmt.Sprintf(format, v...)`. -/
def Sprintf (format : String) (v : List Value) : String :=
  String.mk (expand format.toList v)

end fmt

/-- Message a `Printf`-style logger derives from a call. -/
def LogCall.message (c : LogCall) : String :=
  fmt.Sprintf c.format c.args

/-! ## The package's types (httptool.go, lines 9-29 and 47-48) -/

/-- Logger interface (lines 10-15).  An implementation of `Printf` returns
normally and may change the application state. -/
structure Logger (σ : Type) where
  impl : String → List Value → σ → σ

/-- Call `logger.Printf(format, v...)`: the call is recorded and the
implementation runs. -/
def Logger.Printf {σ : Type} (logger : Logger σ) (format : String) (v : List Value)
    (s : World σ) : World σ :=
  { events := s.events ++ [.logger ⟨format, v⟩], app := logger.impl format v s.app }

/-- Handler interface (lines 18-20): a nil interface value, or an object with
the method `ServeHTTP(w, r) error`. -/
inductive Handler (σ : Type) where
  | nil
  | obj (serve : Request → World σ → Outcome σ GoError)

/-- Method call `h.ServeHTTP(w, r)`. -/
def Handler.ServeHTTP {σ : Type} : Handler σ → Request → World σ → Outcome σ GoError
  | .nil, _, s => .panic nilDereference s
  | .obj serve, r, s => serve r s

/-- HandlerFunc function type (line 24); `none` is the nil function. -/
abbrev HandlerFunc (σ : Type) := Option (Request → World σ → Outcome σ GoError)

/-- Method `ServeHTTP` of HandlerFunc (lines 27-29): calls `f(w, r)`. -/
def HandlerFunc.ServeHTTP {σ : Type} (f : HandlerFunc σ) (r : Request) (s : World σ) :
    Outcome σ GoError :=
  match f with
  | some fn => fn r s
  | none => .panic nilDereference s

/-- Conversion of a HandlerFunc to the Handler interface: a non-nil interface
value whose method is `HandlerFunc.ServeHTTP`. -/
def HandlerFunc.toHandler {σ : Type} (f : HandlerFunc σ) : Handler σ :=
  .obj (HandlerFunc.ServeHTTP f)

/-- Middleware function type (line 48). -/
abbrev Middleware (σ : Type) := Handler σ → Handler σ

/-! ## Chain (lines 50-64) -/

/-- Loop of `Chain` (lines 52-56), entered with `i + 1` entries left: the
index runs from `i` down to `0`; a non-nil `mw[i]` is applied to `next`, a nil
one is passed over. -/
def Chain.loop {σ : Type} (mw : List (Option (Middleware σ))) : Nat → Handler σ → Handler σ
  | 0, next => next
  | i + 1, next =>
    match mw[i]? with
    | some (some h) => Chain.loop mw i (h next)
    | _ => Chain.loop mw i next

/-- Function `Chain(next, mw...)` (lines 51-59); a nil entry of `mw` is `none`. -/
def Chain {σ : Type} (next : Handler σ) (mw : List (Option (Middleware σ))) : Handler σ :=
  Chain.loop mw mw.length next

/-- Function `ChainFunc(next, mw...)` (lines 62-64). -/
def ChainFunc {σ : Type} (next : HandlerFunc σ) (mw : List (Option (Middleware σ))) :
    Handler σ :=
  Chain next.toHandler mw

/-! ## `net/http` -/

namespace http

/-- Constant `http.StatusInternalServerError`. -/
def StatusInternalServerError : Nat := 500

/-- Table `statusText` of `net/http`: the reason phrase of each status code. -/
def statusText : List (Nat × String) :=
  [(100, "Continue"), (101, "Switching Protocols"), (102, "Processing"),
   (103, "Early Hints"),
   (200, "OK"), (201, "Created"), (202, "Accepted"),
   (203, "Non-Authoritative Information"), (204, "No Content"),
   (205, "Reset Content"), (206, "Partial Content"), (207, "Multi-Status"),
   (208, "Already Reported"), (226, "IM Used"),
   (300, "Multiple Choices"), (301, "Moved Permanently"), (302, "Found"),
   (303, "See Other"), (304, "Not Modified"), (305, "Use Proxy"),
   (307, "Temporary Redirect"), (308, "Permanent Redirect"),
   (400, "Bad Request"), (401, "Unauthorized"), (402, "Payment Required"),
   (403, "Forbidden"), (404, "Not Found"), (405, "Method Not Allowed"),
   (406, "Not Acceptable"), (407, "Proxy Authentication Required"),
   (408, "Request Timeout"), (409, "Conflict"), (410, "Gone"),
   (411, "Length Required"), (412, "Precondition Failed"),
   (413, "Request Entity Too Large"), (414, "Request URI Too Long"),
   (415, "Unsupported Media Type"), (416, "Requested Range Not Satisfiable"),
   (417, "Expectation Failed"), (418, "I\x27m a teapot"),
   (421, "Misdirected Request"), (422, "Unprocessable Entity"), (423, "Locked"),
   (424, "Failed Dependency"), (425, "Too Early"), (426, "Upgrade Required"),
   (428, "Precondition Required"), (429, "Too Many Requests"),
   (431, "Request Header Fields Too Large"),
   (451, "Unavailable For Legal Reasons"),
   (500, "Internal Server Error"), (501, "Not Implemented"), (502, "Bad Gateway"),
   (503, "Service Unavailable"), (504, "Gateway Timeout"),
   (505, "HTTP Version Not Supported"), (506, "Variant Also Negotiates"),
   (507, "Insufficient Storage"), (508, "Loop Detected"), (510, "Not Extended"),
   (511, "Network Authentication Required")]

/-- Function `http.StatusText(code)`: the text for the code, empty when the
code is unknown. -/
def StatusText (code : Nat) : String :=
  (statusText.lookup code).getD ""

/-- Function `http.Error(w, error, code)`: sets the two headers of a plain-text
reply, writes the status line with `code`, then prints `error` and a newline
to `w` (`fmt.Fprintln`). -/
def Error {σ : Type} (error : String) (code : Nat) (s : World σ) : World σ :=
  s.write [.headerSet "Content-Type" "text/plain; charset=utf-8",
           .headerSet "X-Content-Type-Options" "nosniff",
           .writeHeader code,
           .write (error ++ "\n")]

/-- Interface `http.Handler`: a nil interface value, or an object with the
method `ServeHTTP(w, r)`, which has no result. -/
inductive Handler (σ : Type) where
  | nil
  | obj (serve : Request → World σ → Outcome σ Unit)

/-- Method call `h.ServeHTTP(w, r)` on an `http.Handler`. -/
def Handler.ServeHTTP {σ : Type} : Handler σ → Request → World σ → Outcome σ Unit
  | .nil, _, s => .panic nilDereference s
  | .obj serve, r, s => serve r s

/-- Function type `http.HandlerFunc`; `none` is the nil function. -/
abbrev HandlerFunc (σ : Type) := Option (Request → World σ → Outcome σ Unit)

/-- Method `ServeHTTP` of `http.HandlerFunc`: calls `f(w, r)`. -/
def HandlerFunc.ServeHTTP {σ : Type} (f : HandlerFunc σ) (r : Request) (s : World σ) :
    Outcome σ Unit :=
  match f with
  | some fn => fn r s
  | none => .panic nilDereference s

/-- An `http.HandlerFunc` used as an `http.Handler`. -/
def HandlerFunc.toHandler {σ : Type} (f : HandlerFunc σ) : Handler σ :=
  .obj (HandlerFunc.ServeHTTP f)

end http

/-! ## The recovery boundary (lines 31-45) -/

/-- Function `recovery(w, logger)` (lines 31-36), which runs as a deferred
call.  `pending` is the panic in flight when it starts: `recover()` returns
its value, or nil when there is none, and stops the panic, so the function
returns normally.  The writer `w` is the record `World.w`. -/
def recovery {σ : Type} (logger : Logger σ) (pending : Option Value) (s : World σ) :
    Outcome σ Unit :=
  match pending with
  | some err =>
    let s1 := logger.Printf "%v" [err] s
    .ret () (http.Error (http.StatusText http.StatusInternalServerError)
      http.StatusInternalServerError s1)
  | none => .ret () s

/-- Function `RecoveryHandler(next, logger)` (lines 39-45): the returned
handler defers `recovery(w, logger)` and calls `next.ServeHTTP(w, r)`; `recovery`
runs when that call has returned or panicked. -/
def RecoveryHandler {σ : Type} (next : http.Handler σ) (logger : Logger σ) : http.Handler σ :=
  http.HandlerFunc.toHandler (some fun r s =>
    match next.ServeHTTP r s with
    | .ret _ s1 => recovery logger none s1
    | .panic v s1 => recovery logger (some v) s1)

/-! ## Reference forms and sample values -/

/-- One step of the right fold over a middleware list with nil entries. -/
def applyEntry {σ : Type} (m : Option (Middleware σ)) (acc : Handler σ) : Handler σ :=
  match m with
  | some h => h acc
  | none => acc

/-- Manual nesting `m0(m1(...mk(t)...))`. -/
def nest {σ : Type} (t : Handler σ) (ms : List (Middleware σ)) : Handler σ :=
  ms.foldr (fun m acc => m acc) t

/-- Calls the writer receives from `http.Error(w, "Internal Server Error", 500)`. -/
def internalServerErrorCalls : List WriterCall :=
  [.headerSet "Content-Type" "text/plain; charset=utf-8",
   .headerSet "X-Content-Type-Options" "nosniff",
   .writeHeader 500,
   .write "Internal Server Error\n"]

/-- Caller-side glue, not part of the package: the package offers no way to
hand one of its error-returning handlers to `RecoveryHandler`, whose parameter
is an `http.Handler`; a caller has to wrap it in an `http.HandlerFunc` that
calls it, and the method of `http.Handler` has no result to carry the error. -/
def discardError {σ : Type} (h : Handler σ) : http.Handler σ :=
  http.HandlerFunc.toHandler (some fun r s =>
    match h.ServeHTTP r s with
    | .ret _ s1 => .ret () s1
    | .panic v s1 => .panic v s1)

/-- Middleware that appends `name` to the shared list, then calls `next`. -/
def named (name : String) : Middleware (List String) :=
  fun next => .obj fun r s => next.ServeHTTP r { s with app := s.app ++ [name] }

/-- Terminal handler that appends "T" to the shared list and returns nil. -/
def terminalT : Handler (List String) :=
  .obj fun _ s => .ret none { s with app := s.app ++ ["T"] }

/-- Sample request. -/
def sampleRequest : Request := ⟨"GET", "/"⟩

/-- State of a fresh exchange with an empty shared list. -/
def freshWorld : World (List String) := ⟨[], []⟩

/-- Logger whose implementation leaves the application state alone. -/
def plainLogger : Logger (List String) := ⟨fun _ _ a => a⟩

/-- An `http.Handler` that writes a header and part of a body, then panics
with `v`. -/
def writesThenPanics (v : Value) : http.Handler (List String) :=
  .obj fun _ s => .panic v (s.write [.writeHeader 200, .write "partial"])

/-- State in which `writesThenPanics` leaves a fresh exchange. -/
def partialWorld : World (List String) :=
  ⟨[.writer (.writeHeader 200), .writer (.write "partial")], []⟩

/-- State in which `writesOK` leaves a fresh exchange. -/
def repliedWorld : World (List String) :=
  ⟨[.writer (.writeHeader 200), .writer (.write "ok")], []⟩

/-- An `http.Handler` that writes a reply and returns. -/
def writesOK : http.Handler (List String) :=
  .obj fun _ s => .ret () (s.write [.writeHeader 200, .write "ok"])

/-- Handler of the package that returns the error "not found". -/
def failsNotFound : Handler (List String) :=
  .obj fun _ s => .ret (some "not found") s

/-- Handler of the package that returns nil. -/
def succeeds : Handler (List String) :=
  .obj fun _ s => .ret none s

/-- Terminal handler that always panics with "boom". -/
def panicsBoom {σ : Type} : Handler σ :=
  .obj fun _ s => .panic (.str "boom") s

/-- Middleware that sets a response header, then calls `next` and returns
what it returns. -/
def setsHeader {σ : Type} (key value : String) : Middleware σ :=
  fun next => .obj fun r s => next.ServeHTTP r (s.write [.headerSet key value])

/-- An `http.Handler` that logs a line and writes part of a body, then panics
with `v`. -/
def announcesThenPanics (v : Value) : http.Handler (List String) :=
  .obj fun _ s =>
    .panic v { s with events := s.events ++ [.logger ⟨"start", []⟩, .writer (.write "partial")] }

/-- State in which `announcesThenPanics` leaves a fresh exchange. -/
def announcedWorld : World (List String) :=
  ⟨[.logger ⟨"start", []⟩, .writer (.write "partial")], []⟩

/-! ## Construction of a chain as an execution -/

/-- A Go function value of type Middleware as code that runs when it is
called: from a state and with a handler as argument it returns a handler or
panics, and it may act on the state. -/
abbrev MiddlewareCode (σ : Type) := Handler σ → World σ → Outcome σ (Handler σ)

/-- The code of a middleware that is a pure transformation of handlers
(spec §3): it returns `m next` and leaves the state alone. -/
def MiddlewareCode.ofPure {σ : Type} (m : Middleware σ) : MiddlewareCode σ :=
  fun next s => .ret (m next) s

/-- Execution of the loop of `Chain` (lines 52-56) from a state: the only
calls it makes are the calls `h(next)` of the non-nil entries, from the last
entry to the first; a panic of one of them ends the loop. -/
def Chain.loopExec {σ : Type} (mw : List (Option (MiddlewareCode σ))) :
    Nat → Handler σ → World σ → Outcome σ (Handler σ)
  | 0, next, s => .ret next s
  | i + 1, next, s =>
    match mw[i]? with
    | some (some h) =>
      match h next s with
      | .ret next1 s1 => Chain.loopExec mw i next1 s1
      | .panic v s1 => .panic v s1
    | _ => Chain.loopExec mw i next s

/-- Execution of the call `Chain(next, mw...)` (lines 51-59) from a state. -/
def Chain.exec {σ : Type} (next : Handler σ) (mw : List (Option (MiddlewareCode σ)))
    (s : World σ) : Outcome σ (Handler σ) :=
  Chain.loopExec mw mw.length next s

/-! ## The reply a client receives -/

namespace httptest

/-- Recorder of `net/http/httptest`: the reply built from the calls a response
writer received.  Header fields and the status are fixed by the first
`WriteHeader`; a `Write` before any `WriteHeader` fixes them with status 200.
Header keys are taken as written. -/
structure ResponseRecorder where
  header : List (String × String)
  wroteHeader : Bool
  code : Nat
  body : String
  deriving DecidableEq, Repr

/-- Recorder of a fresh exchange (`httptest.NewRecorder`). -/
def NewRecorder : ResponseRecorder := ⟨[], false, 200, ""⟩

/-- Effect of one writer call on the recorded reply. -/
def ResponseRecorder.step (rec : ResponseRecorder) : WriterCall → ResponseRecorder
  | .headerSet k v =>
    if rec.wroteHeader then rec
    else { rec with header := rec.header.filter (fun kv => kv.1 != k) ++ [(k, v)] }
  | .headerAdd k v =>
    if rec.wroteHeader then rec else { rec with header := rec.header ++ [(k, v)] }
  | .headerDel k =>
    if rec.wroteHeader then rec
    else { rec with header := rec.header.filter (fun kv => kv.1 != k) }
  | .writeHeader c =>
    if rec.wroteHeader then rec else { rec with wroteHeader := true, code := c }
  | .write d =>
    if rec.wroteHeader then { rec with body := rec.body ++ d }
    else { rec with wroteHeader := true, code := 200, body := rec.body ++ d }

/-- The reply recorded from a sequence of writer calls. -/
def record (calls : List WriterCall) : ResponseRecorder :=
  calls.foldl ResponseRecorder.step NewRecorder

end httptest

/-- The end-to-end exchange: the terminal handler panics with "boom" inside a
chain with the middleware that sets the header `X-Middleware: M`, the chain is
wrapped for `net/http` and put behind the recovery boundary, and one request
is served on a fresh exchange. -/
def boomExchange : Outcome (List String) Unit :=
  (RecoveryHandler (discardError (Chain panicsBoom [some (setsHeader "X-Middleware" "M")]))
    plainLogger).ServeHTTP sampleRequest freshWorld

/-- An `http.Handler` that sets a header, then panics with `v` before it has
written a status or a body. -/
def setsHeaderThenPanics (v : Value) : http.Handler (List String) :=
  .obj fun _ s => .panic v (s.write [.headerSet "X-Trace" "1"])

/-- State in which `setsHeaderThenPanics` leaves a fresh exchange. -/
def tracedWorld : World (List String) :=
  ⟨[.writer (.headerSet "X-Trace" "1")], []⟩

/-- Code of a middleware that refuses a nil handler: it panics when `next` is
nil and returns `next` otherwise. -/
def rejectsNil {σ : Type} : MiddlewareCode σ :=
  fun next s =>
    match next with
    | .nil => .panic (.str "nil handler") s
    | .obj serve => .ret (.obj serve) s

/-- Code of a middleware that invokes `next` once while the chain is built,
then returns it. -/
def probesNext {σ : Type} : MiddlewareCode σ :=
  fun next s =>
    match next.ServeHTTP ⟨"GET", "/"⟩ s with
    | .ret _ s1 => .ret next s1
    | .panic v s1 => .panic v s1

/-- Code of a middleware that notes in the shared list that it was called and
returns `next`: it has an effect when the chain is built, and never panics. -/
def registers : MiddlewareCode (List String) :=
  fun next s => .ret next { s with app := s.app ++ ["built"] }

/-- A list of middleware code with a nil entry, a pure entry and an entry with
an effect; none of them panics when called. -/
def sampleCodes : List (Option (MiddlewareCode (List String))) :=
  [some (MiddlewareCode.ofPure (named "A")), none, some registers]

/-- A list of pure middlewares with a nil entry. -/
def sampleMiddlewares : List (Option (Middleware (List String))) :=
  [some (named "A"), none, some (named "B")]

/-! ## Lemmas on the loop of `Chain` -/

section Lemmas

variable {σ : Type}

/-- The loop started at `n` reads only the entries below `n`. -/
theorem Chain.loop_append (xs ys : List (Option (Middleware σ))) :
    ∀ (n : Nat) (t : Handler σ), n ≤ xs.length →
      Chain.loop (xs ++ ys) n t = Chain.loop xs n t := by
  intro n
  induction n with
  | zero => intro t _; rfl
  | succ i ih =>
    intro t hi
    have hlt : i < xs.length := hi
    have hget : (xs ++ ys)[i]? = xs[i]? := List.getElem?_append_left hlt
    simp only [Chain.loop, hget]
    cases xs[i]? with
    | none => exact ih t (Nat.le_of_lt hlt)
    | some m =>
      cases m with
      | none => exact ih t (Nat.le_of_lt hlt)
      | some h => exact ih (h t) (Nat.le_of_lt hlt)

/-- The first step of the loop handles the last entry. -/
theorem Chain.loop_concat (xs : List (Option (Middleware σ))) (m : Option (Middleware σ))
    (t : Handler σ) :
    Chain.loop (xs ++ [m]) (xs.length + 1) t = Chain.loop xs xs.length (applyEntry m t) := by
  have hget : (xs ++ [m])[xs.length]? = some m := by simp
  simp only [Chain.loop, hget]
  cases m with
  | none => exact Chain.loop_append xs [none] xs.length t (Nat.le_refl _)
  | some h => exact Chain.loop_append xs [some h] xs.length (h t) (Nat.le_refl _)

/-- `Chain` is the right fold of `applyEntry` over the list. -/
theorem Chain_eq_foldr_applyEntry (mw : List (Option (Middleware σ))) :
    ∀ t : Handler σ, Chain t mw = mw.foldr applyEntry t := by
  induction mw using List.reverseRecOn with
  | nil => intro t; rfl
  | append_singleton xs m ih =>
    intro t
    have h1 : Chain t (xs ++ [m]) = Chain.loop xs xs.length (applyEntry m t) := by
      unfold Chain
      rw [List.length_append, List.length_singleton]
      exact Chain.loop_concat xs m t
    rw [h1, List.foldr_append]
    exact ih (applyEntry m t)

/-- Nil entries do not contribute to the fold. -/
theorem foldr_applyEntry_filter (mw : List (Option (Middleware σ))) (t : Handler σ) :
    (mw.filter Option.isSome).foldr applyEntry t = mw.foldr applyEntry t := by
  induction mw with
  | nil => rfl
  | cons m rest ih =>
    cases m with
    | none => simpa [List.filter, applyEntry] using ih
    | some h => simp [List.filter, applyEntry, ih]

/-- On a list without nil entries the fold is the manual nesting. -/
theorem foldr_applyEntry_map_some (ms : List (Middleware σ)) (t : Handler σ) :
    (ms.map some).foldr applyEntry t = nest t ms := by
  induction ms with
  | nil => rfl
  | cons m rest ih => simp [applyEntry, nest, List.foldr] at ih ⊢; rw [ih]

/-- Writer calls after further writer calls. -/
theorem World.w_write (s : World σ) (calls : List WriterCall) :
    (s.write calls).w = s.w ++ calls := by
  simp only [World.w, World.write, List.filterMap_append, List.filterMap_map]
  congr 1
  induction calls with
  | nil => rfl
  | cons c rest ih => simpa [List.filterMap_cons, Event.writerCall] using ih

/-- Writer calls leave the record of logger calls as it was. -/
theorem World.logged_write (s : World σ) (calls : List WriterCall) :
    (s.write calls).logged = s.logged := by
  simp only [World.logged, World.write, List.filterMap_append, List.filterMap_map]
  have h : List.filterMap (Event.logCall ∘ Event.writer) calls = [] := by
    induction calls with
    | nil => rfl
    | cons c rest ih => simp [List.filterMap_cons, Event.logCall]
  rw [h, List.append_nil]

/-- A call of `Printf` leaves the record of writer calls as it was. -/
theorem Logger.w_Printf (logger : Logger σ) (format : String) (v : List Value)
    (s : World σ) : (logger.Printf format v s).w = s.w := by
  simp [World.w, Logger.Printf, List.filterMap_append, Event.writerCall]

/-- A call of `Printf` is recorded after the earlier logger calls. -/
theorem Logger.logged_Printf (logger : Logger σ) (format : String) (v : List Value)
    (s : World σ) : (logger.Printf format v s).logged = s.logged ++ [⟨format, v⟩] := by
  simp [World.logged, Logger.Printf, List.filterMap_append, Event.logCall]

/-- Writer calls of the state after `recovery` has handled a panic. -/
theorem recovered_w (logger : Logger σ) (v : Value) (s1 : World σ) :
    (http.Error "Internal Server Error" 500 (logger.Printf "%v" [v] s1)).w =
      s1.w ++ internalServerErrorCalls := by
  unfold http.Error
  rw [World.w_write, Logger.w_Printf]
  rfl

/-- Logger calls of the state after `recovery` has handled a panic. -/
theorem recovered_logged (logger : Logger σ) (v : Value) (s1 : World σ) :
    (http.Error "Internal Server Error" 500 (logger.Printf "%v" [v] s1)).logged =
      s1.logged ++ [⟨"%v", [v]⟩] := by
  unfold http.Error
  rw [World.logged_write, Logger.logged_Printf]

/-- A writer call keeps the body empty as long as no header is written. -/
theorem httptest.step_keeps_empty_body (rr : httptest.ResponseRecorder) (c : WriterCall)
    (h : rr.wroteHeader = false → rr.body = "") :
    (rr.step c).wroteHeader = false → (rr.step c).body = "" := by
  cases hw : rr.wroteHeader <;> cases c <;>
    simp [httptest.ResponseRecorder.step, hw] at h ⊢ <;> exact h

/-- The same along a sequence of writer calls. -/
theorem httptest.foldl_keeps_empty_body (calls : List WriterCall) :
    ∀ rr : httptest.ResponseRecorder, (rr.wroteHeader = false → rr.body = "") →
      (calls.foldl httptest.ResponseRecorder.step rr).wroteHeader = false →
      (calls.foldl httptest.ResponseRecorder.step rr).body = "" := by
  induction calls with
  | nil => intro rr h; exact h
  | cons c rest ih =>
    intro rr h
    exact ih (rr.step c) (httptest.step_keeps_empty_body rr c h)

/-- A reply whose header is not written yet has an empty body. -/
theorem httptest.record_body_of_not_wroteHeader (calls : List WriterCall)
    (h : (httptest.record calls).wroteHeader = false) : (httptest.record calls).body = "" :=
  httptest.foldl_keeps_empty_body calls httptest.NewRecorder (fun _ => rfl) h

/-- The reply after the calls of `http.Error(w, "Internal Server Error", 500)`
when no header was written before them. -/
theorem httptest.record_internalServerError (calls : List WriterCall)
    (h : (httptest.record calls).wroteHeader = false) :
    (httptest.record (calls ++ internalServerErrorCalls)).code = 500 ∧
    (httptest.record (calls ++ internalServerErrorCalls)).body = "Internal Server Error\n" := by
  have hb := httptest.record_body_of_not_wroteHeader calls h
  unfold httptest.record at h hb ⊢
  rw [List.foldl_append]
  simp [internalServerErrorCalls, httptest.ResponseRecorder.step, h, hb]

/-- The text of status 500 in the table of `net/http`. -/
theorem StatusText_internalServerError :
    http.StatusText http.StatusInternalServerError = "Internal Server Error" := by
  decide

/-- The same with the constant written out. -/
theorem StatusText_500 : http.StatusText 500 = "Internal Server Error" :=
  StatusText_internalServerError

/-- The deferred `recovery` after a panic of the inner handler. -/
theorem RecoveryHandler_of_panic (next : http.Handler σ) (logger : Logger σ) (r : Request)
    (s s1 : World σ) (v : Value) (h : next.ServeHTTP r s = .panic v s1) :
    (RecoveryHandler next logger).ServeHTTP r s =
      .ret () (http.Error "Internal Server Error" 500 (logger.Printf "%v" [v] s1)) := by
  have hstep : (RecoveryHandler next logger).ServeHTTP r s =
      (match next.ServeHTTP r s with
       | .ret _ s1 => recovery logger none s1
       | .panic v s1 => recovery logger (some v) s1) := rfl
  rw [hstep, h]
  simp only [recovery, http.StatusInternalServerError, StatusText_500]

/-- The deferred `recovery` after a normal return of the inner handler. -/
theorem RecoveryHandler_of_ret (next : http.Handler σ) (logger : Logger σ) (r : Request)
    (s s1 : World σ) (h : next.ServeHTTP r s = .ret () s1) :
    (RecoveryHandler next logger).ServeHTTP r s = .ret () s1 := by
  have hstep : (RecoveryHandler next logger).ServeHTTP r s =
      (match next.ServeHTTP r s with
       | .ret _ s1 => recovery logger none s1
       | .panic v s1 => recovery logger (some v) s1) := rfl
  rw [hstep, h]
  rfl

end Lemmas

/-! ## Chain: nesting, nil entries, order -/

section ChainClaims

variable {σ : Type}

/-- C1: for every terminal handler `t` and every list of non-nil middlewares
`[m0, ..., mk]`, `Chain(t, m0, ..., mk)` is the handler `m0(m1(...mk(t)...))`,
the right fold of the list over `t`; so on every request and from every state
both give the same outcome (writer calls, logger calls, returned error or
panic). -/
theorem Chain_eq_nest (t : Handler σ) (ms : List (Middleware σ)) :
    Chain t (ms.map some) = ms.foldr (fun m acc => m acc) t ∧
    ∀ (r : Request) (s : World σ),
      (Chain t (ms.map some)).ServeHTTP r s = (nest t ms).ServeHTTP r s := by
  have h : Chain t (ms.map some) = nest t ms := by
    rw [Chain_eq_foldr_applyEntry, foldr_applyEntry_map_some]
  exact ⟨h, fun r s => by rw [h]⟩

/-- C2: for every terminal handler and every middleware list with nil entries
at arbitrary positions, `Chain` gives the same handler as on the list with the
nil entries removed and the order of the others kept; that handler is the
nesting of the non-nil entries alone, so a nil entry is passed over and never
applied. -/
theorem Chain_filter_nil (t : Handler σ) (mw : List (Option (Middleware σ))) :
    Chain t mw = Chain t (mw.filter Option.isSome) ∧
    Chain t mw = nest t (mw.filterMap id) := by
  have h1 : Chain t mw = Chain t (mw.filter Option.isSome) := by
    rw [Chain_eq_foldr_applyEntry, Chain_eq_foldr_applyEntry, foldr_applyEntry_filter]
  refine ⟨h1, ?_⟩
  clear h1
  rw [Chain_eq_foldr_applyEntry]
  induction mw with
  | nil => rfl
  | cons m rest ih =>
    cases m with
    | none => simpa [applyEntry, nest] using ih
    | some h => simp [applyEntry, nest] at ih ⊢; rw [ih]

/-- C8: onion order.  For every list of names, with one middleware per name
that appends its name to the shared list before calling the next handler, and
the terminal handler that appends "T", one invocation of the chain appends the
names in list order and then "T", and returns nil; for `[A, B, C]` on a fresh
exchange the shared list ends as `["A", "B", "C", "T"]`. -/
theorem Chain_onion_order (names : List String) (r : Request) (s : World (List String)) :
    (Chain terminalT (names.map fun n => some (named n))).ServeHTTP r s =
      .ret none { s with app := s.app ++ names ++ ["T"] } ∧
    ((Chain terminalT [some (named "A"), some (named "B"), some (named "C")]).ServeHTTP
      sampleRequest freshWorld).world.app = ["A", "B", "C", "T"] := by
  refine ⟨?_, rfl⟩
  rw [Chain_eq_foldr_applyEntry]
  induction names generalizing s with
  | nil => simp [terminalT, Handler.ServeHTTP]
  | cons n rest ih =>
    have hstep : ∀ next : Handler (List String),
        (named n next).ServeHTTP r s = next.ServeHTTP r { s with app := s.app ++ [n] } :=
      fun _ => rfl
    simp only [List.map_cons, List.foldr_cons, applyEntry]
    rw [hstep, ih]
    simp

/-- C10: for every terminal handler `t`, `Chain(t)` with zero middleware is
`t` itself, so it behaves as `t` on every request. -/
theorem Chain_nil_eq (t : Handler σ) :
    Chain t [] = t ∧
    ∀ (r : Request) (s : World σ), (Chain t []).ServeHTTP r s = t.ServeHTTP r s :=
  ⟨rfl, fun _ _ => rfl⟩

end ChainClaims

/-! ## The recovery boundary -/

section RecoveryClaims

variable {σ : Type}

/-- C3: for every inner handler that panics with value `V`, one invocation of
the handler returned by `RecoveryHandler(inner, logger)` adds exactly one call
to those the logger had received when the panic was raised, the call
`Printf("%v", V)`, whose message is the `%v` text of `V`; the logger's
implementation runs once, on that call. -/
theorem RecoveryHandler_logs_panic_once (inner : http.Handler σ) (logger : Logger σ)
    (r : Request) (s s1 : World σ) (V : Value)
    (h : inner.ServeHTTP r s = .panic V s1) :
    ((RecoveryHandler inner logger).ServeHTTP r s).world.logged =
      s1.logged ++ [⟨"%v", [V]⟩] ∧
    (LogCall.mk "%v" [V]).message = fmt.formatValue V ∧
    ((RecoveryHandler inner logger).ServeHTTP r s).world.app =
      logger.impl "%v" [V] s1.app := by
  rw [RecoveryHandler_of_panic inner logger r s s1 V h]
  refine ⟨recovered_logged logger V s1, ?_, rfl⟩
  show String.mk (fmt.expand ['%', 'v'] [V]) = fmt.formatValue V
  simp [fmt.expand]

/-- Witness of C3: a handler that panics with "boom" after a partial reply. -/
theorem RecoveryHandler_logs_panic_once_witness :
    (writesThenPanics (.str "boom")).ServeHTTP sampleRequest freshWorld =
      .panic (.str "boom") partialWorld ∧
    (((RecoveryHandler (writesThenPanics (.str "boom")) plainLogger).ServeHTTP
        sampleRequest freshWorld).world.logged =
      partialWorld.logged ++ [⟨"%v", [.str "boom"]⟩] ∧
    (LogCall.mk "%v" [.str "boom"]).message = fmt.formatValue (.str "boom") ∧
    ((RecoveryHandler (writesThenPanics (.str "boom")) plainLogger).ServeHTTP
        sampleRequest freshWorld).world.app =
      plainLogger.impl "%v" [.str "boom"] partialWorld.app) :=
  ⟨rfl, RecoveryHandler_logs_panic_once (writesThenPanics (.str "boom")) plainLogger
    sampleRequest freshWorld partialWorld (.str "boom") rfl⟩

/-- C4, as stated, fails.  After a handler that has written the status 200
and part of a body before it panics, the reply behind the boundary keeps the
status 200 and its body is the partial body followed by the error line; and
after a handler that wrote nothing the body is the status text followed by a
newline, not the bare text. -/
theorem RecoveryHandler_reply_after_partial_reply :
    (writesThenPanics (.str "boom")).ServeHTTP sampleRequest freshWorld =
      .panic (.str "boom") partialWorld ∧
    (httptest.record ((RecoveryHandler (writesThenPanics (.str "boom")) plainLogger).ServeHTTP
      sampleRequest freshWorld).world.w).code = 200 ∧
    (httptest.record ((RecoveryHandler (writesThenPanics (.str "boom")) plainLogger).ServeHTTP
      sampleRequest freshWorld).world.w).body = "partialInternal Server Error\n" ∧
    (httptest.record ((RecoveryHandler http.Handler.nil plainLogger).ServeHTTP
      sampleRequest freshWorld).world.w).body ≠ "Internal Server Error" :=
  ⟨rfl, by decide, by decide, by decide⟩

/-- C4, amended: for every inner handler that panics, the handler returned by
the recovery boundary makes, after the writer calls of the inner handler, the
calls of `http.Error(w, "Internal Server Error", 500)`: `WriteHeader(500)` and
a write of the standard status text of 500, "Internal Server Error", followed
by a newline.  When the inner handler had written neither a status nor a body
before the panic, the reply has status 500 and its body is that text followed
by a newline. -/
theorem RecoveryHandler_writes_500 (inner : http.Handler σ) (logger : Logger σ)
    (r : Request) (s s1 : World σ) (V : Value)
    (h : inner.ServeHTTP r s = .panic V s1) :
    ((RecoveryHandler inner logger).ServeHTTP r s).world.w =
      s1.w ++ [.headerSet "Content-Type" "text/plain; charset=utf-8",
               .headerSet "X-Content-Type-Options" "nosniff",
               .writeHeader 500,
               .write (http.StatusText 500 ++ "\n")] ∧
    http.StatusText 500 = "Internal Server Error" ∧
    ((httptest.record s1.w).wroteHeader = false →
      (httptest.record ((RecoveryHandler inner logger).ServeHTTP r s).world.w).code = 500 ∧
      (httptest.record ((RecoveryHandler inner logger).ServeHTTP r s).world.w).body =
        "Internal Server Error\n") := by
  rw [RecoveryHandler_of_panic inner logger r s s1 V h, StatusText_500]
  refine ⟨recovered_w logger V s1, rfl, ?_⟩
  intro hfresh
  show (httptest.record
      (http.Error "Internal Server Error" 500 (logger.Printf "%v" [V] s1)).w).code = 500 ∧
    (httptest.record
      (http.Error "Internal Server Error" 500 (logger.Printf "%v" [V] s1)).w).body =
        "Internal Server Error\n"
  rw [recovered_w]
  exact httptest.record_internalServerError s1.w hfresh

/-- Witness of amended C4: a handler that sets a header and panics with
"boom" before it has written a status or a body. -/
theorem RecoveryHandler_writes_500_witness :
    (setsHeaderThenPanics (.str "boom")).ServeHTTP sampleRequest freshWorld =
      .panic (.str "boom") tracedWorld ∧
    (httptest.record tracedWorld.w).wroteHeader = false ∧
    ((RecoveryHandler (setsHeaderThenPanics (.str "boom")) plainLogger).ServeHTTP
        sampleRequest freshWorld).world.w =
      tracedWorld.w ++ [.headerSet "Content-Type" "text/plain; charset=utf-8",
               .headerSet "X-Content-Type-Options" "nosniff",
               .writeHeader 500,
               .write (http.StatusText 500 ++ "\n")] ∧
    http.StatusText 500 = "Internal Server Error" ∧
    (httptest.record ((RecoveryHandler (setsHeaderThenPanics (.str "boom"))
      plainLogger).ServeHTTP sampleRequest freshWorld).world.w).code = 500 ∧
    (httptest.record ((RecoveryHandler (setsHeaderThenPanics (.str "boom"))
      plainLogger).ServeHTTP sampleRequest freshWorld).world.w).body =
        "Internal Server Error\n" :=
  have hthm := RecoveryHandler_writes_500 (setsHeaderThenPanics (.str "boom")) plainLogger
    sampleRequest freshWorld tracedWorld (.str "boom") rfl
  ⟨rfl, rfl, hthm.1, hthm.2.1, (hthm.2.2 rfl).1, (hthm.2.2 rfl).2⟩

/-- C5: the recovery boundary recovers from all panics.  For every inner
handler (the nil one included), every logger, request and state, invoking
`RecoveryHandler(inner, logger)` returns normally: whether the inner handler
returns or panics with any value, no panic passes the boundary.  The logger
and the writer are sinks that return normally. -/
theorem RecoveryHandler_returns_normally (inner : http.Handler σ) (logger : Logger σ)
    (r : Request) (s : World σ) :
    (∃ s2, (RecoveryHandler inner logger).ServeHTTP r s = .ret () s2) ∧
    ((RecoveryHandler inner logger).ServeHTTP r s).returns = true := by
  cases h : inner.ServeHTTP r s with
  | ret val s1 =>
    rw [RecoveryHandler_of_ret inner logger r s s1 h]
    exact ⟨⟨s1, rfl⟩, rfl⟩
  | panic v s1 =>
    rw [RecoveryHandler_of_panic inner logger r s s1 v h]
    exact ⟨⟨_, rfl⟩, rfl⟩

/-- C6: for every inner handler that completes without a panic, invoking the
wrapped handler returns with exactly the state the inner handler reached: no
logger call and no writer call is added by the boundary. -/
theorem RecoveryHandler_transparent_on_return (inner : http.Handler σ) (logger : Logger σ)
    (r : Request) (s s1 : World σ)
    (h : inner.ServeHTTP r s = .ret () s1) :
    (RecoveryHandler inner logger).ServeHTTP r s = .ret () s1 ∧
    ((RecoveryHandler inner logger).ServeHTTP r s).world.logged = s1.logged ∧
    ((RecoveryHandler inner logger).ServeHTTP r s).world.w = s1.w := by
  rw [RecoveryHandler_of_ret inner logger r s s1 h]
  exact ⟨rfl, rfl, rfl⟩

/-- Witness of C6: a handler that writes a reply and returns. -/
theorem RecoveryHandler_transparent_on_return_witness :
    writesOK.ServeHTTP sampleRequest freshWorld = .ret () repliedWorld ∧
    ((RecoveryHandler writesOK plainLogger).ServeHTTP sampleRequest freshWorld =
      .ret () repliedWorld ∧
    ((RecoveryHandler writesOK plainLogger).ServeHTTP sampleRequest freshWorld).world.logged =
      repliedWorld.logged ∧
    ((RecoveryHandler writesOK plainLogger).ServeHTTP sampleRequest freshWorld).world.w =
      repliedWorld.w) :=
  ⟨rfl, RecoveryHandler_transparent_on_return writesOK plainLogger sampleRequest freshWorld
    repliedWorld rfl⟩

/-- C7, as stated, fails: the boundary takes and yields an `http.Handler`,
whose method has no result.  The handler `failsNotFound` returns the error
"not found" and `succeeds` returns nil; behind the boundary both invocations
return the same, the unit value in the unchanged state, so the error is not
returned. -/
theorem RecoveryHandler_error_not_returned :
    failsNotFound.ServeHTTP sampleRequest freshWorld = .ret (some "not found") freshWorld ∧
    succeeds.ServeHTTP sampleRequest freshWorld = .ret none freshWorld ∧
    (RecoveryHandler (discardError failsNotFound) plainLogger).ServeHTTP
      sampleRequest freshWorld = .ret () freshWorld ∧
    (RecoveryHandler (discardError succeeds) plainLogger).ServeHTTP
      sampleRequest freshWorld = .ret () freshWorld :=
  ⟨rfl, rfl, rfl, rfl⟩

/-- C7, amended: the boundary takes an `http.Handler` and yields an
`http.Handler`; for every handler of the package that returns a value `e`
(an error or nil) without a panic, wrapped for the boundary by a caller, the
invocation through the boundary returns normally in exactly the state the
handler reached, with no logger or writer call added, and with the unit value
as its only result. -/
theorem RecoveryHandler_discards_returned_error (h : Handler σ) (logger : Logger σ)
    (r : Request) (s s1 : World σ) (e : GoError)
    (hret : h.ServeHTTP r s = .ret e s1) :
    (RecoveryHandler (discardError h) logger).ServeHTTP r s = .ret () s1 := by
  apply RecoveryHandler_of_ret
  have hstep : (discardError h).ServeHTTP r s =
      (match h.ServeHTTP r s with
       | .ret _ s1 => .ret () s1
       | .panic v s1 => .panic v s1) := rfl
  rw [hstep, hret]

/-- Witness of amended C7: the handler returning the error "not found". -/
theorem RecoveryHandler_discards_returned_error_witness :
    failsNotFound.ServeHTTP sampleRequest freshWorld = .ret (some "not found") freshWorld ∧
    (RecoveryHandler (discardError failsNotFound) plainLogger).ServeHTTP
      sampleRequest freshWorld = .ret () freshWorld :=
  ⟨rfl, RecoveryHandler_discards_returned_error failsNotFound plainLogger sampleRequest
    freshWorld freshWorld (some "not found") rfl⟩

/-- C9: no fault detail reaches the client.  For any two invocations whose
inner handlers panic, with values `V1` and `V2`, after the same writer calls,
the writer calls after the boundary are the same: those of the inner handler
followed by the fixed calls of the 500 reply, in which no panic value occurs;
the value is passed to the logger alone. -/
theorem RecoveryHandler_response_hides_fault (inner1 inner2 : http.Handler σ)
    (logger : Logger σ) (r1 r2 : Request) (s1 s2 t1 t2 : World σ) (V1 V2 : Value)
    (h1 : inner1.ServeHTTP r1 s1 = .panic V1 t1)
    (h2 : inner2.ServeHTTP r2 s2 = .panic V2 t2)
    (hw : t1.w = t2.w) :
    ((RecoveryHandler inner1 logger).ServeHTTP r1 s1).world.w =
      ((RecoveryHandler inner2 logger).ServeHTTP r2 s2).world.w ∧
    ((RecoveryHandler inner1 logger).ServeHTTP r1 s1).world.w =
      t1.w ++ internalServerErrorCalls ∧
    ((RecoveryHandler inner1 logger).ServeHTTP r1 s1).world.logged =
      t1.logged ++ [⟨"%v", [V1]⟩] := by
  rw [RecoveryHandler_of_panic inner1 logger r1 s1 t1 V1 h1,
    RecoveryHandler_of_panic inner2 logger r2 s2 t2 V2 h2]
  refine ⟨?_, recovered_w logger V1 t1, recovered_logged logger V1 t1⟩
  show (http.Error "Internal Server Error" 500 (logger.Printf "%v" [V1] t1)).w =
    (http.Error "Internal Server Error" 500 (logger.Printf "%v" [V2] t2)).w
  rw [recovered_w, recovered_w, hw]

/-- Witness of C9: the same handler panicking with "secret" and with 42. -/
theorem RecoveryHandler_response_hides_fault_witness :
    (writesThenPanics (.str "secret")).ServeHTTP sampleRequest freshWorld =
      .panic (.str "secret") partialWorld ∧
    (writesThenPanics (.int 42)).ServeHTTP sampleRequest freshWorld =
      .panic (.int 42) partialWorld ∧
    partialWorld.w = partialWorld.w ∧
    (((RecoveryHandler (writesThenPanics (.str "secret")) plainLogger).ServeHTTP
        sampleRequest freshWorld).world.w =
      ((RecoveryHandler (writesThenPanics (.int 42)) plainLogger).ServeHTTP
        sampleRequest freshWorld).world.w ∧
    ((RecoveryHandler (writesThenPanics (.str "secret")) plainLogger).ServeHTTP
        sampleRequest freshWorld).world.w =
      partialWorld.w ++ internalServerErrorCalls ∧
    ((RecoveryHandler (writesThenPanics (.str "secret")) plainLogger).ServeHTTP
        sampleRequest freshWorld).world.logged =
      partialWorld.logged ++ [⟨"%v", [.str "secret"]⟩]) :=
  ⟨rfl, rfl, rfl, RecoveryHandler_response_hides_fault (writesThenPanics (.str "secret"))
    (writesThenPanics (.int 42)) plainLogger sampleRequest sampleRequest freshWorld freshWorld
    partialWorld partialWorld (.str "secret") (.int 42) rfl rfl rfl⟩

end RecoveryClaims

/-! ## Further lemmas -/

section MoreLemmas

variable {σ : Type}

/-- The fold over a list with nil entries is the nesting of its non-nil
entries. -/
theorem foldr_applyEntry_eq_nest (mw : List (Option (Middleware σ))) (t : Handler σ) :
    mw.foldr applyEntry t = nest t (mw.filterMap id) := by
  induction mw with
  | nil => rfl
  | cons m rest ih =>
    cases m with
    | none => simpa [applyEntry, nest] using ih
    | some h => simp [applyEntry, nest] at ih ⊢; rw [ih]

/-- With pure middlewares the executed loop returns what the loop of `Chain`
computes and leaves the state as it was. -/
theorem Chain.loopExec_ofPure (mw : List (Option (Middleware σ))) :
    ∀ (n : Nat) (t : Handler σ) (s : World σ),
      Chain.loopExec (mw.map (Option.map MiddlewareCode.ofPure)) n t s =
        .ret (Chain.loop mw n t) s := by
  intro n
  induction n with
  | zero => intro t s; rfl
  | succ i ih =>
    intro t s
    simp only [Chain.loopExec, Chain.loop, List.getElem?_map]
    cases mw[i]? with
    | none => exact ih t s
    | some m =>
      cases m with
      | none => exact ih t s
      | some h => exact ih (h t) s

/-- When no entry panics on being called, the executed loop returns. -/
theorem Chain.loopExec_returns (codes : List (Option (MiddlewareCode σ)))
    (hcodes : ∀ c, some c ∈ codes → ∀ (next : Handler σ) (t : World σ),
      (c next t).returns = true) :
    ∀ (n : Nat) (next : Handler σ) (s : World σ),
      (Chain.loopExec codes n next s).returns = true := by
  intro n
  induction n with
  | zero => intro next s; rfl
  | succ i ih =>
    intro next s
    simp only [Chain.loopExec]
    cases hget : codes[i]? with
    | none => exact ih next s
    | some m =>
      cases m with
      | none => exact ih next s
      | some c =>
        have hmem : some c ∈ codes := List.getElem?_mem hget
        have hc := hcodes c hmem next s
        cases hcall : c next s with
        | ret next1 s1 =>
          simp only [hcall]
          exact ih next1 s1
        | panic v s1 =>
          rw [hcall] at hc
          exact absurd hc (by simp [Outcome.returns])

/-- The handler returned by the boundary always returns normally. -/
theorem RecoveryHandler_returns (next : http.Handler σ) (logger : Logger σ) (r : Request)
    (s : World σ) : ∃ s2, (RecoveryHandler next logger).ServeHTTP r s = .ret () s2 := by
  cases h : next.ServeHTTP r s with
  | ret val s1 => exact ⟨s1, RecoveryHandler_of_ret next logger r s s1 h⟩
  | panic v s1 => exact ⟨_, RecoveryHandler_of_panic next logger r s s1 v h⟩

/-- Events of the state after `recovery` has handled a panic. -/
theorem recovered_events (logger : Logger σ) (v : Value) (s1 : World σ) :
    (http.Error "Internal Server Error" 500 (logger.Printf "%v" [v] s1)).events =
      s1.events ++ [.logger ⟨"%v", [v]⟩] ++ internalServerErrorCalls.map Event.writer :=
  rfl

end MoreLemmas

/-! ## Adapter, construction and composition of chains -/

section ConstructionClaims

variable {σ : Type}

/-- C12: for every bare handler function `f` (the nil function included) and
every middleware list, `ChainFunc(f, ms...)` is `Chain(HandlerFunc(f), ms...)`:
the same handler value, the nesting of the non-nil middlewares around the
adapted function, with the same outcome on every request. -/
theorem ChainFunc_eq_Chain (f : HandlerFunc σ) (mw : List (Option (Middleware σ))) :
    ChainFunc f mw = Chain (HandlerFunc.toHandler f) mw ∧
    ChainFunc f mw = nest (HandlerFunc.toHandler f) (mw.filterMap id) ∧
    ∀ (r : Request) (s : World σ),
      (ChainFunc f mw).ServeHTTP r s = (Chain (HandlerFunc.toHandler f) mw).ServeHTTP r s := by
  refine ⟨rfl, ?_, fun _ _ => rfl⟩
  unfold ChainFunc
  rw [Chain_eq_foldr_applyEntry, foldr_applyEntry_eq_nest]

/-- C13, as stated, fails for some middleware lists: with a middleware that
refuses a nil handler, and with one that invokes the handler it is given,
executing `Chain(nil, m)` panics while the chain is built. -/
theorem Chain_nil_terminal_construction_panics :
    Chain.exec Handler.nil [some rejectsNil] freshWorld =
      .panic (.str "nil handler") freshWorld ∧
    Chain.exec Handler.nil [some probesNext] freshWorld =
      .panic nilDereference freshWorld :=
  ⟨rfl, rfl⟩

/-- C13, amended: `Chain` itself does not fail on a nil terminal handler.
For every middleware list in which no middleware panics on being called,
executing `Chain(nil, ms...)` returns normally.  For every list of pure
middlewares, nil entries included, it returns, in the state it started from,
the nesting of the non-nil middlewares around the nil handler, which is the
value `Chain` computes; when every entry is nil the result is the nil handler
itself, and only its invocation fails, with the nil dereference. -/
theorem Chain_nil_terminal (codes : List (Option (MiddlewareCode σ)))
    (mw : List (Option (Middleware σ))) (n : Nat) (r : Request) (s : World σ)
    (hcodes : ∀ c, some c ∈ codes → ∀ (next : Handler σ) (t : World σ),
      (c next t).returns = true) :
    (Chain.exec Handler.nil codes s).returns = true ∧
    Chain.exec Handler.nil (mw.map (Option.map MiddlewareCode.ofPure)) s =
      .ret (nest Handler.nil (mw.filterMap id)) s ∧
    Chain Handler.nil mw = nest Handler.nil (mw.filterMap id) ∧
    Chain (Handler.nil : Handler σ) (List.replicate n none) = Handler.nil ∧
    (Chain (Handler.nil : Handler σ) (List.replicate n none)).ServeHTTP r s =
      .panic nilDereference s := by
  have hnil : Chain (Handler.nil : Handler σ) (List.replicate n none) = Handler.nil := by
    rw [Chain_eq_foldr_applyEntry]
    induction n with
    | zero => rfl
    | succ k ih => simpa [List.replicate_succ, applyEntry] using ih
  have hnest : Chain Handler.nil mw = nest Handler.nil (mw.filterMap id) := by
    rw [Chain_eq_foldr_applyEntry, foldr_applyEntry_eq_nest]
  refine ⟨Chain.loopExec_returns codes hcodes codes.length Handler.nil s, ?_, hnest, hnil, ?_⟩
  · unfold Chain.exec
    rw [List.length_map, Chain.loopExec_ofPure mw mw.length Handler.nil s]
    have h : Chain.loop mw mw.length Handler.nil = Chain Handler.nil mw := rfl
    rw [h, hnest]
  · rw [hnil]
    rfl

/-- Witness of amended C13: a list with a pure middleware, a nil entry and a
middleware that acts on the state when the chain is built. -/
theorem Chain_nil_terminal_witness :
    (∀ c, some c ∈ sampleCodes → ∀ (next : Handler (List String)) (t : World (List String)),
      (c next t).returns = true) ∧
    ((Chain.exec Handler.nil sampleCodes freshWorld).returns = true ∧
    Chain.exec Handler.nil (sampleMiddlewares.map (Option.map MiddlewareCode.ofPure))
        freshWorld =
      .ret (nest Handler.nil (sampleMiddlewares.filterMap id)) freshWorld ∧
    Chain Handler.nil sampleMiddlewares = nest Handler.nil (sampleMiddlewares.filterMap id) ∧
    Chain (Handler.nil : Handler (List String)) (List.replicate 2 none) = Handler.nil ∧
    (Chain (Handler.nil : Handler (List String)) (List.replicate 2 none)).ServeHTTP
        sampleRequest freshWorld =
      .panic nilDereference freshWorld) :=
  have hcodes : ∀ c, some c ∈ sampleCodes →
      ∀ (next : Handler (List String)) (t : World (List String)),
        (c next t).returns = true := by
    intro c hc next t
    simp only [sampleCodes, List.mem_cons, Option.some.injEq, List.mem_singleton,
      reduceCtorEq, false_or, List.not_mem_nil, or_false] at hc
    rcases hc with rfl | rfl <;> rfl
  ⟨hcodes, Chain_nil_terminal sampleCodes sampleMiddlewares 2 sampleRequest freshWorld hcodes⟩

/-- C14: `Chain` invokes no handler at construction time.  For every terminal
handler and every list of pure middlewares, nil entries included, executing
`Chain(t, ms...)` from any state returns the handler `Chain t ms` in that same
state: no request is processed, and the calls received by the writer and by
the logger and the application state are unchanged. -/
theorem Chain_construction_pure (t : Handler σ) (mw : List (Option (Middleware σ)))
    (s : World σ) :
    Chain.exec t (mw.map (Option.map MiddlewareCode.ofPure)) s = .ret (Chain t mw) s ∧
    (Chain.exec t (mw.map (Option.map MiddlewareCode.ofPure)) s).world = s := by
  have h : Chain.exec t (mw.map (Option.map MiddlewareCode.ofPure)) s =
      .ret (Chain t mw) s := by
    unfold Chain.exec
    rw [List.length_map, Chain.loopExec_ofPure mw mw.length t s]
    rfl
  exact ⟨h, by rw [h]; rfl⟩

/-- C15: for every function `f` with the handler signature, every request and
every state, `HandlerFunc(f).ServeHTTP(w, r)` is the call `f(w, r)`: the same
effects and the same result, be it an error, nil or a panic of `f`; the same
holds when the adapter is used through the Handler interface. -/
theorem HandlerFunc_ServeHTTP_eq (f : Request → World σ → Outcome σ GoError) (r : Request)
    (s : World σ) :
    HandlerFunc.ServeHTTP (some f) r s = f r s ∧
    (HandlerFunc.toHandler (some f)).ServeHTTP r s = f r s :=
  ⟨rfl, rfl⟩

/-- C16: chains compose by concatenation.  For every terminal handler and all
middleware lists `outer` and `inner`, nil entries allowed,
`Chain(Chain(t, inner...), outer...)` is `Chain(t, (outer ++ inner)...)`. -/
theorem Chain_Chain_append (t : Handler σ) (outer inner : List (Option (Middleware σ))) :
    Chain (Chain t inner) outer = Chain t (outer ++ inner) := by
  rw [Chain_eq_foldr_applyEntry, Chain_eq_foldr_applyEntry, Chain_eq_foldr_applyEntry,
    List.foldr_append]

end ConstructionClaims

/-! ## The recovery boundary: end to end, idempotence, order of effects -/

section BoundaryClaims

variable {σ : Type}

/-- C11, as stated, fails on the body: in the end-to-end exchange the recorded
body is the status text followed by the newline that `http.Error` prints, not
the bare text "Internal Server Error". -/
theorem boomExchange_body_not_bare_text :
    (httptest.record boomExchange.world.w).body = "Internal Server Error\n" ∧
    (httptest.record boomExchange.world.w).body ≠ "Internal Server Error" := by
  decide

/-- C11, amended: end to end, with a terminal handler that always panics with
"boom", a middleware that sets a response header and then calls the next
handler, and the recovery boundary around the chain, one request returns
normally after exactly these calls, in this order: the header is set, the
logger receives the one call `Printf("%v", "boom")`, and the writer receives
the calls of `http.Error`.  On a fresh exchange the reply has the middleware's
header, status 500 and the body "Internal Server Error" followed by a newline,
and the logger has received one call, with message "boom". -/
theorem recovery_end_to_end (key value : String) (logger : Logger σ) (r : Request)
    (s : World σ) :
    (RecoveryHandler (discardError (Chain panicsBoom [some (setsHeader key value)]))
        logger).ServeHTTP r s =
      .ret () ⟨s.events ++ [.writer (.headerSet key value), .logger ⟨"%v", [.str "boom"]⟩] ++
                internalServerErrorCalls.map Event.writer,
              logger.impl "%v" [.str "boom"] s.app⟩ ∧
    (httptest.record boomExchange.world.w).header =
      [("X-Middleware", "M"), ("Content-Type", "text/plain; charset=utf-8"),
       ("X-Content-Type-Options", "nosniff")] ∧
    (httptest.record boomExchange.world.w).code = 500 ∧
    (httptest.record boomExchange.world.w).body = "Internal Server Error\n" ∧
    boomExchange.world.logged.map LogCall.message = ["boom"] := by
  refine ⟨?_, by decide, by decide, by decide, by decide⟩
  have hinner : (discardError (Chain panicsBoom [some (setsHeader key value)])).ServeHTTP r s =
      .panic (.str "boom") (s.write [.headerSet key value]) := rfl
  have hrec : ∀ t : World σ,
      http.Error "Internal Server Error" 500 (logger.Printf "%v" [.str "boom"] t) =
        ⟨t.events ++ [.logger ⟨"%v", [.str "boom"]⟩] ++
            internalServerErrorCalls.map Event.writer,
          logger.impl "%v" [.str "boom"] t.app⟩ :=
    fun _ => rfl
  rw [RecoveryHandler_of_panic _ logger r s _ _ hinner, hrec]
  simp [World.write]

/-- C17: the recovery boundary is idempotent.  For every inner handler,
logger, request and state, the boundary applied twice has the same outcome as
the boundary applied once, and is the same handler; on the handler that
panics with "boom" after a partial reply, the doubly wrapped invocation logs
the fault once and makes the calls of the 500 reply once. -/
theorem RecoveryHandler_idempotent (inner : http.Handler σ) (logger : Logger σ)
    (r : Request) (s : World σ) :
    (RecoveryHandler (RecoveryHandler inner logger) logger).ServeHTTP r s =
      (RecoveryHandler inner logger).ServeHTTP r s ∧
    RecoveryHandler (RecoveryHandler inner logger) logger = RecoveryHandler inner logger ∧
    ((RecoveryHandler (RecoveryHandler (writesThenPanics (.str "boom")) plainLogger)
        plainLogger).ServeHTTP sampleRequest freshWorld).world.events =
      partialWorld.events ++ [.logger ⟨"%v", [.str "boom"]⟩] ++
        internalServerErrorCalls.map Event.writer := by
  have hpoint : ∀ (r : Request) (s : World σ),
      (RecoveryHandler (RecoveryHandler inner logger) logger).ServeHTTP r s =
        (RecoveryHandler inner logger).ServeHTTP r s := by
    intro r s
    obtain ⟨s2, h2⟩ := RecoveryHandler_returns inner logger r s
    rw [RecoveryHandler_of_ret (RecoveryHandler inner logger) logger r s s2 h2, h2]
  refine ⟨hpoint r s, ?_, rfl⟩
  have hobj : ∀ next : http.Handler σ, RecoveryHandler next logger =
      http.Handler.obj (fun r s => (RecoveryHandler next logger).ServeHTTP r s) :=
    fun _ => rfl
  rw [hobj (RecoveryHandler inner logger), hobj inner]
  congr 1
  funext r s
  exact hpoint r s

/-- C18: on a recovered fault the effects of the boundary come after all the
effects of the inner handler, in a fixed order: the calls received are those
the inner handler made before the panic, then the logger call, then the
writer calls of the 500 reply; what the inner handler had logged or written is
kept as a prefix. -/
theorem RecoveryHandler_effects_order (inner : http.Handler σ) (logger : Logger σ)
    (r : Request) (s s1 : World σ) (V : Value)
    (h : inner.ServeHTTP r s = .panic V s1) :
    ((RecoveryHandler inner logger).ServeHTTP r s).world.events =
      s1.events ++ [.logger ⟨"%v", [V]⟩] ++ internalServerErrorCalls.map Event.writer ∧
    s1.events <+: ((RecoveryHandler inner logger).ServeHTTP r s).world.events ∧
    s1.w <+: ((RecoveryHandler inner logger).ServeHTTP r s).world.w ∧
    s1.logged <+: ((RecoveryHandler inner logger).ServeHTTP r s).world.logged := by
  rw [RecoveryHandler_of_panic inner logger r s s1 V h]
  refine ⟨recovered_events logger V s1, ?_, ?_, ?_⟩
  · show s1.events <+: (http.Error "Internal Server Error" 500 (logger.Printf "%v" [V] s1)).events
    rw [recovered_events, List.append_assoc]
    exact List.prefix_append _ _
  · show s1.w <+: (http.Error "Internal Server Error" 500 (logger.Printf "%v" [V] s1)).w
    rw [recovered_w]
    exact List.prefix_append _ _
  · show s1.logged <+:
      (http.Error "Internal Server Error" 500 (logger.Printf "%v" [V] s1)).logged
    rw [recovered_logged]
    exact List.prefix_append _ _

/-- Witness of C18: a handler that logs and writes, then panics with "boom". -/
theorem RecoveryHandler_effects_order_witness :
    (announcesThenPanics (.str "boom")).ServeHTTP sampleRequest freshWorld =
      .panic (.str "boom") announcedWorld ∧
    (((RecoveryHandler (announcesThenPanics (.str "boom")) plainLogger).ServeHTTP
        sampleRequest freshWorld).world.events =
      announcedWorld.events ++ [.logger ⟨"%v", [.str "boom"]⟩] ++
        internalServerErrorCalls.map Event.writer ∧
    announcedWorld.events <+:
      ((RecoveryHandler (announcesThenPanics (.str "boom")) plainLogger).ServeHTTP
        sampleRequest freshWorld).world.events ∧
    announcedWorld.w <+:
      ((RecoveryHandler (announcesThenPanics (.str "boom")) plainLogger).ServeHTTP
        sampleRequest freshWorld).world.w ∧
    announcedWorld.logged <+:
      ((RecoveryHandler (announcesThenPanics (.str "boom")) plainLogger).ServeHTTP
        sampleRequest freshWorld).world.logged) :=
  ⟨rfl, RecoveryHandler_effects_order (announcesThenPanics (.str "boom")) plainLogger
    sampleRequest freshWorld announcedWorld (.str "boom") rfl⟩

end BoundaryClaims

end Httptool
